import Mathlib

/-!
Verification development for the Amazon-Deals-Bot repository.

The Python source (amazon_deal_finder.py, deal_fetcher.py) is shallowly
embedded below: `Decimal`/`float` currency amounts become `ℚ`, Python's
`int()` truncation toward zero becomes `pyInt`, wall-clock time and sleeps
become an explicit `Clock` record threaded through the throttler, and a
Python expression that may raise becomes an `Except`-valued Lean function.

Layout: all definitions first, then helper lemmas, then one theorem per
claim (with witnesses / counterexamples).
-/

namespace DealsBot

/-- Model of Python's `int()` applied to a number: truncation toward zero
(floor for nonnegative arguments, ceiling for negative ones). -/
def pyInt (q : ℚ) : ℤ :=
  if q < 0 then ⌈q⌉ else ⌊q⌋

/-- Embedding of `AmazonDealFinder.calculate_discount` (amazon_deal_finder.py
lines 80-88).  The Python body is
`if original_price <= 0 or current_price <= 0: return 0` followed by
`return int((original_price - current_price) / original_price * 100)`;
`Decimal` arithmetic on currency values is modelled exactly by `ℚ`.  The
surrounding `try/except` can only fire on non-numeric inputs, which the `ℚ`
embedding excludes, so it does not appear here. -/
def calculate_discount (current_price original_price : ℚ) : ℤ :=
  if original_price ≤ 0 ∨ current_price ≤ 0 then 0
  else pyInt ((original_price - current_price) / original_price * 100)

/-- Model of the wall clock seen by `time.time()` / `time.sleep`.  `now` is
the current time; `drifts` is a schedule of extra nonnegative delays, one
consumed at each `time.time()` read, modelling that real execution takes
time between statements (an empty schedule means instantaneous reads). -/
structure Clock where
  now : ℚ
  drifts : List ℚ
deriving DecidableEq, Repr

/-- One `time.time()` call: the returned timestamp is the current time plus
the next scheduled drift. -/
def Clock.read (c : Clock) : ℚ × Clock :=
  (c.now + c.drifts.headD 0, ⟨c.now + c.drifts.headD 0, c.drifts.tail⟩)

/-- One `time.sleep(s)` call: time advances by exactly the requested amount
(any extra real-world delay is absorbed by the next drift). -/
def Clock.sleep (c : Clock) (s : ℚ) : Clock :=
  ⟨c.now + s, c.drifts⟩

/-- The throttling state owned by `AmazonDealFinder` (`__init__`,
amazon_deal_finder.py lines 16-21): `last_request_time` (initially `0`),
`min_request_interval` (initially `10.0`) and `max_retries` (`3`). -/
structure ThrottleState where
  last_request_time : ℚ
  min_request_interval : ℚ
  max_retries : ℕ
deriving DecidableEq, Repr

/-- Character-list helper: `pat` matches at the start of `s`. -/
def charsMatchAt (pat s : List Char) : Bool :=
  match pat, s with
  | [], _ => true
  | _ :: _, [] => false
  | p :: ps, c :: cs => p == c && charsMatchAt ps cs

/-- Character-list helper: `pat` occurs somewhere inside `s`. -/
def charsHaveSub (pat s : List Char) : Bool :=
  charsMatchAt pat s ||
    match s with
    | [] => false
    | _ :: cs => charsHaveSub pat cs

/-- The rate-limit signature test of `_throttled_request`
(amazon_deal_finder.py line 66):
`"TooManyRequests" in str(e) or "Too Many Requests" in str(e)`. -/
def isRateLimitSignature (s : String) : Bool :=
  charsHaveSub "TooManyRequests".data s.data ||
    charsHaveSub "Too Many Requests".data s.data

/-- The observables of one run of the retry loop of `_throttled_request`. -/
structure LoopResult (α : Type) where
  result : Except String α
  dispatchTimes : List ℚ
  backoffSleeps : List ℚ
  finalInterval : ℚ
  finalClock : Clock

/-- The retry loop of `_throttled_request` (amazon_deal_finder.py lines
59-78).  Each iteration records `last_request_time = time.time()` (collected
in `dispatchTimes`), dispatches the wrapped callable (whose outcome for the
n-th dispatch is `func n`, a pair of a call duration and a result), returns
on success, and on a rate-limit-signature error either re-raises (once
`retries` would exceed `maxRetries`) or sleeps `30 * 2 ^ retries'` seconds,
adds `5.0` to the interval, and retries; any other error is re-raised at
once.  `fuel` is the structural bound on iterations: the loop increments
`retries` on every non-terminal iteration and re-raises once
`retries + 1 > maxRetries`, so from the entry point (`retries = 0`,
`fuel = maxRetries + 1`) the `fuel = 0` branch is unreachable. -/
def retryLoop {α : Type} (func : ℕ → ℚ × Except String α) (maxRetries : ℕ) :
    ℕ → ℚ → Clock → ℕ → ℕ → LoopResult α
  | 0, interval, c, _, _ => ⟨Except.error "", [], [], interval, c⟩
  | fuel + 1, interval, c, attempt, retries =>
    let r := c.read
    let t := r.1
    let call := func attempt
    let c2 := (r.2).sleep call.1
    match call.2 with
    | Except.ok v => ⟨Except.ok v, [t], [], interval, c2⟩
    | Except.error e =>
      if isRateLimitSignature e then
        if retries + 1 > maxRetries then
          ⟨Except.error e, [t], [], interval, c2⟩
        else
          let wait : ℚ := 30 * 2 ^ (retries + 1)
          let c3 := c2.sleep wait
          let k := retryLoop func maxRetries fuel (interval + 5) c3 (attempt + 1) (retries + 1)
          ⟨k.result, t :: k.dispatchTimes, wait :: k.backoffSleeps, k.finalInterval, k.finalClock⟩
      else
        ⟨Except.error e, [t], [], interval, c2⟩

/-- The observables of one `_throttled_request` call. -/
structure ExecOutcome (α : Type) where
  result : Except String α
  paceSleep : Option ℚ
  dispatchTimes : List ℚ
  backoffSleeps : List ℚ
  finalState : ThrottleState
  finalClock : Clock

/-- Embedding of `AmazonDealFinder._throttled_request` (amazon_deal_finder.py
lines 47-78).  It reads the clock, sleeps `min_request_interval - elapsed`
when the elapsed time since `last_request_time` is below the interval, then
runs the retry loop; the final state keeps the mutations of `self`:
`last_request_time` is the timestamp taken at the last dispatch (recorded
before the callable runs), and `min_request_interval` is the escalated
interval. -/
def throttledRequest {α : Type} (st : ThrottleState) (c : Clock)
    (func : ℕ → ℚ × Except String α) : ExecOutcome α :=
  let r0 := c.read
  let now := r0.1
  let time_since_last := now - st.last_request_time
  let pace : Option ℚ :=
    if time_since_last < st.min_request_interval then
      some (st.min_request_interval - time_since_last)
    else none
  let c2 := match pace with
    | some s => (r0.2).sleep s
    | none => r0.2
  let r := retryLoop func st.max_retries (st.max_retries + 1) st.min_request_interval c2 0 0
  ⟨r.result, pace, r.dispatchTimes, r.backoffSleeps,
   ⟨r.dispatchTimes.getLastD st.last_request_time, r.finalInterval, st.max_retries⟩,
   r.finalClock⟩

/-- A raw numeric field of an API response item: `num q` converts cleanly
through `Decimal(str(x))` / `float(x)`, while `bad` is a value whose
conversion raises (e.g. `None` or a garbage object) — the realistic source
of the per-item exceptions that the extraction loops catch. -/
inductive PyNum where
  | num (q : ℚ)
  | bad
deriving DecidableEq, Repr

/-- The conversion `Decimal(str(x))` (resp. `float(x)`): yields the numeric
value, or raises. -/
def convertAmount : PyNum → Except Unit ℚ
  | PyNum.num q => Except.ok q
  | PyNum.bad => Except.error ()

/-- A price object (`listing.price` or `listing.saving_basis`): `amount` is
`none` when the `amount` attribute is missing. -/
structure PriceField where
  amount : Option PyNum
deriving DecidableEq, Repr

/-- One offer listing; `price` / `saving_basis` are `none` when the
corresponding attribute is missing. -/
structure Listing where
  price : Option PriceField
  saving_basis : Option PriceField
deriving DecidableEq, Repr

/-- One raw catalog item, as a tagged-optional tree.  `offers_listings`
is `none` when the guard `hasattr(item, 'offers') and item.offers and
hasattr(item.offers, 'listings')` fails (missing or falsy at either level);
`title`, `asin` and `image_url` are the values reached by the optional
attribute paths, `none` when any step of the path is absent. -/
structure Item where
  offers_listings : Option (List Listing)
  title : Option String
  asin : Option String
  image_url : Option String
deriving DecidableEq, Repr

/-- The normalized deal record appended by the extraction loops. -/
structure Deal where
  asin : String
  title : String
  price : ℚ
  original_price : ℚ
  discount_percent : ℤ
  url : String
  image_url : Option String
  posted : Bool
deriving DecidableEq, Repr

/-- Per-item extraction of `find_deals_by_keyword` (amazon_deal_finder.py
lines 117-168), i.e. the body of the per-item `try`: `Except.error` is an
exception reaching the per-item `except` handler, `Except.ok none` is a
`continue` (drop), `Except.ok (some d)` appends deal `d`.  `tag` is the
rendered `os.getenv('ASSOCIATE_TAG')` value of the constructed URL. -/
def extractItemE (min_discount : ℤ) (tag : String) (item : Item) :
    Except Unit (Option Deal) :=
  match item.offers_listings with
  | none => Except.ok none
  | some [] => Except.ok none
  | some (listing :: _) =>
    match listing.price with
    | none => Except.ok none
    | some pf =>
      match pf.amount with
      | none => Except.ok none
      | some a =>
        match convertAmount a with
        | Except.error u => Except.error u
        | Except.ok current_price =>
          match listing.saving_basis with
          | none => Except.ok none
          | some sb =>
            match sb.amount with
            | none => Except.ok none
            | some b =>
              match convertAmount b with
              | Except.error u => Except.error u
              | Except.ok original_price =>
                let discount := calculate_discount current_price original_price
                if min_discount ≤ discount then
                  Except.ok (some
                    { asin := item.asin.getD "unknown",
                      title := item.title.getD "Unknown Product",
                      price := current_price,
                      original_price := original_price,
                      discount_percent := discount,
                      url := "https://www.amazon.com/dp/" ++ item.asin.getD "unknown"
                        ++ "?tag=" ++ tag,
                      image_url := item.image_url,
                      posted := false })
                else Except.ok none

/-- The per-item `try/except` wrapper of `find_deals_by_keyword`: an
exception is logged and the item dropped. -/
def extractItem (min_discount : ℤ) (tag : String) (item : Item) : Option Deal :=
  match extractItemE min_discount tag item with
  | Except.error _ => none
  | Except.ok o => o

/-- The item loop of `find_deals_by_keyword`: process items in order,
appending each extracted deal to the accumulator. -/
def processItems (min_discount : ℤ) (tag : String) : List Item → List Deal
  | [] => []
  | item :: rest =>
    match extractItem min_discount tag item with
    | none => processItems min_discount tag rest
    | some d => d :: processItems min_discount tag rest

/-- Per-item extraction of the inline loop of `fetch_daily_deals`
(deal_fetcher.py lines 91-140): the same guard chain, but the discount is
`int((original_price - current_price) / original_price * 100)` computed
directly, which raises `ZeroDivisionError` when `original_price == 0`
(caught by the per-item handler), and the threshold is the fixed `15`. -/
def extractItemFetcherE (tag : String) (item : Item) :
    Except Unit (Option Deal) :=
  match item.offers_listings with
  | none => Except.ok none
  | some [] => Except.ok none
  | some (listing :: _) =>
    match listing.price with
    | none => Except.ok none
    | some pf =>
      match pf.amount with
      | none => Except.ok none
      | some a =>
        match convertAmount a with
        | Except.error u => Except.error u
        | Except.ok current_price =>
          match listing.saving_basis with
          | none => Except.ok none
          | some sb =>
            match sb.amount with
            | none => Except.ok none
            | some b =>
              match convertAmount b with
              | Except.error u => Except.error u
              | Except.ok original_price =>
                if original_price = 0 then Except.error ()
                else
                  let discount :=
                    pyInt ((original_price - current_price) / original_price * 100)
                  if (15 : ℤ) ≤ discount then
                    Except.ok (some
                      { asin := item.asin.getD "unknown",
                        title := item.title.getD "Unknown Product",
                        price := current_price,
                        original_price := original_price,
                        discount_percent := discount,
                        url := "https://www.amazon.com/dp/" ++ item.asin.getD "unknown"
                          ++ "?tag=" ++ tag,
                        image_url := item.image_url,
                        posted := false })
                  else Except.ok none

/-- The per-item `try/except` wrapper of `fetch_daily_deals`. -/
def extractItemFetcher (tag : String) (item : Item) : Option Deal :=
  match extractItemFetcherE tag item with
  | Except.error _ => none
  | Except.ok o => o

/-- The item loop of `fetch_daily_deals`. -/
def processItemsFetcher (tag : String) : List Item → List Deal
  | [] => []
  | item :: rest =>
    match extractItemFetcher tag item with
    | none => processItemsFetcher tag rest
    | some d => d :: processItemsFetcher tag rest

/-- The sort order of `deals.sort(key=lambda x: x['discount_percent'],
reverse=True)`: `a` may come before `b` when `a`'s discount is at least
`b`'s. -/
def dealGE (a b : Deal) : Prop := b.discount_percent ≤ a.discount_percent

instance : DecidableRel dealGE :=
  fun a b => inferInstanceAs (Decidable (b.discount_percent ≤ a.discount_percent))

instance : IsTotal Deal dealGE :=
  ⟨fun a b => le_total b.discount_percent a.discount_percent⟩

instance : IsTrans Deal dealGE :=
  ⟨fun _ _ _ hab hbc => le_trans hbc hab⟩

/-- Python's `list.sort(key=..., reverse=True)` is a stable descending sort;
a stable sort is uniquely determined by its order and stability, so it is
modelled by insertion sort under `dealGE` (which places an element after all
strictly-greater keys and before the first equal-or-smaller key, preserving
the relative order of equal keys). -/
def sortDealsDesc (deals : List Deal) : List Deal :=
  List.insertionSort dealGE deals

/-- The ranking and truncation of `find_best_deals` (amazon_deal_finder.py
lines 275-277): sort descending by `discount_percent`, return the first
`num_deals` (caller default `5`). -/
def selectTopDeals (deals : List Deal) (num_deals : ℕ := 5) : List Deal :=
  (sortDealsDesc deals).take num_deals

/-- Embedding of `find_deals_by_keyword` (amazon_deal_finder.py lines
90-176) for one keyword.  `searchCall` is the behaviour of the wrapped
`client.search_items` call, routed through `throttledRequest`; its payload
is `none` when the response lacks an `items` attribute, `some items`
otherwise.  The whole body sits inside one `try/except` that returns `[]`,
so any error of the throttled request (including the rate-limit error
re-raised after retry exhaustion) yields the empty list; a response with no
items also yields `[]`; otherwise the extracted deals, sorted descending by
discount.  The throttler state and clock mutations survive either way. -/
def findDealsByKeyword (st : ThrottleState) (c : Clock)
    (searchCall : ℕ → ℚ × Except String (Option (List Item)))
    (min_discount : ℤ) (tag : String) : List Deal × ThrottleState × Clock :=
  let r := throttledRequest st c searchCall
  match r.result with
  | Except.error _ => ([], r.finalState, r.finalClock)
  | Except.ok none => ([], r.finalState, r.finalClock)
  | Except.ok (some items) =>
    if items.isEmpty then ([], r.finalState, r.finalClock)
    else (sortDealsDesc (processItems min_discount tag items), r.finalState, r.finalClock)

/-- The keyword sweep of `find_best_deals` (amazon_deal_finder.py lines
195-273): iterate the keywords in order; for each, run the throttled search
— whose per-keyword outcome is abstracted as `search k` — and on success
extract the deals and append them to the shared accumulator; any exception
of a keyword's search (e.g. the rate-limit error surfaced after retry
exhaustion) is caught by the per-keyword `except` and the sweep continues
with the next keyword.  A response without items (`none` payload or empty
list) contributes nothing. -/
def sweepDeals (search : String → Except String (Option (List Item)))
    (min_discount : ℤ) (tag : String) : List String → List Deal
  | [] => []
  | k :: ks =>
    (match search k with
     | Except.error _ => []
     | Except.ok none => []
     | Except.ok (some items) =>
       if items.isEmpty then [] else processItems min_discount tag items)
      ++ sweepDeals search min_discount tag ks

/-- The fixed keyword list of `find_best_deals` (amazon_deal_finder.py
lines 185-192). -/
def snackKeywords : List String :=
  ["snack box", "rice krispies treats", "granola bars", "chips snacks",
   "cookies snacks", "trail mix"]

/-- `find_best_deals` (amazon_deal_finder.py lines 178-277): sweep the fixed
keyword list, then sort descending by discount and truncate to `num_deals`. -/
def find_best_deals (search : String → Except String (Option (List Item)))
    (min_discount : ℤ) (tag : String) (num_deals : ℕ := 5) : List Deal :=
  selectTopDeals (sweepDeals search min_discount tag snackKeywords) num_deals

/-- A deal with a given identifier and discount (all other fields fixed),
used to state concrete ranking facts. -/
def mkDeal (asin : String) (discount : ℤ) : Deal :=
  ⟨asin, "Unknown Product", 0, 0, discount, "", none, false⟩

end DealsBot

namespace DealsBot

theorem pyInt_of_nonneg {q : ℚ} (h : 0 ≤ q) : pyInt q = ⌊q⌋ := by
  simp [pyInt, not_lt.mpr h]

theorem ceil_neg_hundred : (⌈(-100 : ℚ)⌉ : ℤ) = -100 := by
  rw [show (-100 : ℚ) = ((-100 : ℤ) : ℚ) by norm_num]
  exact Int.ceil_intCast _

theorem calculate_discount_nonneg_of_le {c o : ℚ} (h : c ≤ o) :
    0 ≤ calculate_discount c o := by
  unfold calculate_discount
  split
  · exact le_refl 0
  · rename_i hguard
    push_neg at hguard
    have ho : 0 < o := hguard.1
    have hq : 0 ≤ (o - c) / o * 100 := by
      have h1 : 0 ≤ o - c := sub_nonneg.mpr h
      have h2 : 0 ≤ (o - c) / o := div_nonneg h1 (le_of_lt ho)
      nlinarith
    rw [pyInt_of_nonneg hq]
    exact Int.floor_nonneg.mpr hq

theorem retryLoop_finalInterval {α : Type} (func : ℕ → ℚ × Except String α)
    (maxRetries : ℕ) :
    ∀ (fuel : ℕ) (interval : ℚ) (c : Clock) (attempt retries : ℕ),
      (retryLoop func maxRetries fuel interval c attempt retries).finalInterval =
        interval +
          5 * ((retryLoop func maxRetries fuel interval c attempt retries).backoffSleeps.length : ℚ) := by
  intro fuel
  induction fuel with
  | zero => intro interval c attempt retries; simp [retryLoop]
  | succ fuel ih =>
    intro interval c attempt retries
    simp only [retryLoop]
    cases ho : (func attempt).2 with
    | ok v => simp
    | error e =>
      cases hs : isRateLimitSignature e with
      | false => simp [hs]
      | true =>
        simp only [hs, if_true]
        by_cases hr : maxRetries < retries + 1
        · simp [hr]
        · simp only [if_neg hr, List.length_cons]
          rw [ih]
          push_cast
          ring

theorem retryLoop_interval_le {α : Type} (func : ℕ → ℚ × Except String α)
    (maxRetries fuel : ℕ) (interval : ℚ) (c : Clock) (attempt retries : ℕ) :
    interval ≤ (retryLoop func maxRetries fuel interval c attempt retries).finalInterval := by
  rw [retryLoop_finalInterval]
  have : (0 : ℚ) ≤ 5 * ((retryLoop func maxRetries fuel interval c attempt retries).backoffSleeps.length : ℚ) := by
    positivity
  linarith

theorem retryLoop_dispatchTimes_head {α : Type} (func : ℕ → ℚ × Except String α)
    (maxRetries fuel : ℕ) (interval : ℚ) (c : Clock) (attempt retries : ℕ) :
    (retryLoop func maxRetries (fuel + 1) interval c attempt retries).dispatchTimes.headD 0 =
      c.now + c.drifts.headD 0 := by
  simp only [retryLoop]
  cases ho : (func attempt).2 with
  | ok v => simp [Clock.read]
  | error e =>
    cases hs : isRateLimitSignature e with
    | false => simp [hs, Clock.read]
    | true =>
      simp only [hs, if_true]
      by_cases hr : maxRetries < retries + 1
      · simp [hr, Clock.read]
      · simp [if_neg hr, Clock.read]

theorem retryLoop_dispatchTimes_ne_nil {α : Type} (func : ℕ → ℚ × Except String α)
    (maxRetries fuel : ℕ) (interval : ℚ) (c : Clock) (attempt retries : ℕ) :
    (retryLoop func maxRetries (fuel + 1) interval c attempt retries).dispatchTimes ≠ [] := by
  simp only [retryLoop]
  cases ho : (func attempt).2 with
  | ok v => simp
  | error e =>
    cases hs : isRateLimitSignature e with
    | false => simp [hs]
    | true =>
      simp only [hs, if_true]
      by_cases hr : maxRetries < retries + 1
      · simp [hr]
      · simp [if_neg hr]

theorem retryLoop_drifts_mem {α : Type} (func : ℕ → ℚ × Except String α)
    (maxRetries : ℕ) :
    ∀ (fuel : ℕ) (interval : ℚ) (c : Clock) (attempt retries : ℕ) (d : ℚ),
      d ∈ (retryLoop func maxRetries fuel interval c attempt retries).finalClock.drifts →
        d ∈ c.drifts := by
  intro fuel
  induction fuel with
  | zero => intro interval c attempt retries d hmem; simpa [retryLoop] using hmem
  | succ fuel ih =>
    intro interval c attempt retries d hmem
    simp only [retryLoop] at hmem
    cases ho : (func attempt).2 with
    | ok v =>
      rw [ho] at hmem
      simp only [Clock.sleep, Clock.read] at hmem
      exact List.mem_of_mem_tail hmem
    | error e =>
      rw [ho] at hmem
      cases hs : isRateLimitSignature e with
      | false =>
        simp only [hs, Bool.false_eq_true, if_false] at hmem
        simp only [Clock.sleep, Clock.read] at hmem
        exact List.mem_of_mem_tail hmem
      | true =>
        simp only [hs, if_true] at hmem
        by_cases hr : maxRetries < retries + 1
        · simp only [if_pos hr, Clock.sleep, Clock.read] at hmem
          exact List.mem_of_mem_tail hmem
        · simp only [if_neg hr] at hmem
          have := ih _ _ _ _ _ hmem
          simp only [Clock.sleep, Clock.read] at this
          exact List.mem_of_mem_tail this

theorem headD_nonneg {l : List ℚ} (h : ∀ d ∈ l, 0 ≤ d) : 0 ≤ l.headD 0 := by
  cases l with
  | nil => exact le_refl 0
  | cons x xs => exact h x (List.mem_cons_self x xs)

theorem tail_nonneg {l : List ℚ} (h : ∀ d ∈ l, 0 ≤ d) : ∀ d ∈ l.tail, 0 ≤ d :=
  fun d hd => h d (List.mem_of_mem_tail hd)

theorem throttled_dispatch_ge {α : Type} (st : ThrottleState) (c : Clock)
    (func : ℕ → ℚ × Except String α) (hd : ∀ d ∈ c.drifts, 0 ≤ d) :
    st.last_request_time + st.min_request_interval ≤
      (throttledRequest st c func).dispatchTimes.headD 0 := by
  have htail : 0 ≤ c.drifts.tail.headD 0 := headD_nonneg (tail_nonneg hd)
  simp only [throttledRequest]
  by_cases h : c.read.1 - st.last_request_time < st.min_request_interval
  · simp only [if_pos h]
    rw [retryLoop_dispatchTimes_head]
    simp only [Clock.sleep, Clock.read]
    simp only [Clock.read] at h
    linarith
  · simp only [if_neg h]
    rw [retryLoop_dispatchTimes_head]
    simp only [Clock.read]
    simp only [Clock.read] at h
    push_neg at h
    linarith

theorem throttled_drifts_mem {α : Type} (st : ThrottleState) (c : Clock)
    (func : ℕ → ℚ × Except String α) (d : ℚ)
    (hmem : d ∈ (throttledRequest st c func).finalClock.drifts) : d ∈ c.drifts := by
  simp only [throttledRequest] at hmem
  by_cases h : c.read.1 - st.last_request_time < st.min_request_interval
  · rw [if_pos h] at hmem
    have := retryLoop_drifts_mem func st.max_retries _ _ _ _ _ _ hmem
    simp only [Clock.sleep, Clock.read] at this
    exact List.mem_of_mem_tail this
  · rw [if_neg h] at hmem
    have := retryLoop_drifts_mem func st.max_retries _ _ _ _ _ _ hmem
    simp only [Clock.read] at this
    exact List.mem_of_mem_tail this

theorem throttled_interval_eq {α : Type} (st : ThrottleState) (c : Clock)
    (func : ℕ → ℚ × Except String α) :
    (throttledRequest st c func).finalState.min_request_interval =
      st.min_request_interval +
        5 * ((throttledRequest st c func).backoffSleeps.length : ℚ) := by
  simp only [throttledRequest]
  exact retryLoop_finalInterval func st.max_retries _ _ _ _ _

theorem throttled_interval_ge {α : Type} (st : ThrottleState) (c : Clock)
    (func : ℕ → ℚ × Except String α) :
    st.min_request_interval ≤ (throttledRequest st c func).finalState.min_request_interval := by
  rw [throttled_interval_eq]
  have : (0 : ℚ) ≤ 5 * ((throttledRequest st c func).backoffSleeps.length : ℚ) := by positivity
  linarith

theorem retryLoop_success {α : Type} (func : ℕ → ℚ × Except String α)
    (maxRetries fuel : ℕ) (interval : ℚ) (c : Clock) (attempt retries : ℕ)
    (dur : ℚ) (v : α) (hf : func attempt = (dur, Except.ok v)) :
    retryLoop func maxRetries (fuel + 1) interval c attempt retries =
      ⟨Except.ok v, [c.now + c.drifts.headD 0], [], interval,
        ⟨c.now + c.drifts.headD 0 + dur, c.drifts.tail⟩⟩ := by
  simp [retryLoop, hf, Clock.read, Clock.sleep]

theorem throttled_result_success {α : Type} (st : ThrottleState) (c : Clock)
    (func : ℕ → ℚ × Except String α) (dur : ℚ) (v : α)
    (hf : func 0 = (dur, Except.ok v)) :
    (throttledRequest st c func).result = Except.ok v := by
  simp only [throttledRequest]
  by_cases h : c.read.1 - st.last_request_time < st.min_request_interval
  · simp only [if_pos h]
    rw [retryLoop_success func st.max_retries st.max_retries st.min_request_interval _ 0 0 dur v hf]
  · simp only [if_neg h]
    rw [retryLoop_success func st.max_retries st.max_retries st.min_request_interval _ 0 0 dur v hf]

theorem processItems_append (md : ℤ) (tag : String) (l₁ l₂ : List Item) :
    processItems md tag (l₁ ++ l₂) =
      processItems md tag l₁ ++ processItems md tag l₂ := by
  induction l₁ with
  | nil => simp [processItems]
  | cons item rest ih =>
    simp only [List.cons_append, processItems]
    cases extractItem md tag item with
    | none => exact ih
    | some d => simp [ih]

theorem processItems_cons (md : ℤ) (tag : String) (item : Item) (l : List Item) :
    processItems md tag (item :: l) =
      (extractItem md tag item).toList ++ processItems md tag l := by
  simp only [processItems]
  cases extractItem md tag item <;> simp

theorem processItemsFetcher_append (tag : String) (l₁ l₂ : List Item) :
    processItemsFetcher tag (l₁ ++ l₂) =
      processItemsFetcher tag l₁ ++ processItemsFetcher tag l₂ := by
  induction l₁ with
  | nil => simp [processItemsFetcher]
  | cons item rest ih =>
    simp only [List.cons_append, processItemsFetcher]
    cases extractItemFetcher tag item with
    | none => exact ih
    | some d => simp [ih]

theorem sweepDeals_append (search : String → Except String (Option (List Item)))
    (md : ℤ) (tag : String) (ks₁ ks₂ : List String) :
    sweepDeals search md tag (ks₁ ++ ks₂) =
      sweepDeals search md tag ks₁ ++ sweepDeals search md tag ks₂ := by
  induction ks₁ with
  | nil => simp [sweepDeals]
  | cons k ks ih =>
    simp only [List.cons_append, sweepDeals, List.append_eq]
    rw [ih, List.append_assoc]

theorem filter_orderedInsert_eq (a : Deal) (k : ℤ) (ha : a.discount_percent = k) :
    ∀ l : List Deal,
      (List.orderedInsert dealGE a l).filter (fun d => d.discount_percent == k) =
        a :: l.filter (fun d => d.discount_percent == k) := by
  intro l
  have hat : (a.discount_percent == k) = true := beq_iff_eq.mpr ha
  induction l with
  | nil => simp [List.orderedInsert, hat]
  | cons b t ih =>
    simp only [List.orderedInsert]
    by_cases h : dealGE a b
    · rw [if_pos h]
      simp [List.filter_cons, hat]
    · rw [if_neg h]
      simp only [dealGE, not_le] at h
      have hbf : (b.discount_percent == k) = false := by
        have : ¬ b.discount_percent = k := by omega
        simp [this]
      simp [List.filter_cons, hbf, ih]

theorem filter_orderedInsert_ne (a : Deal) (k : ℤ) (ha : ¬ a.discount_percent = k) :
    ∀ l : List Deal,
      (List.orderedInsert dealGE a l).filter (fun d => d.discount_percent == k) =
        l.filter (fun d => d.discount_percent == k) := by
  intro l
  have haf : (a.discount_percent == k) = false := by simp [ha]
  induction l with
  | nil => simp [List.orderedInsert, haf]
  | cons b t ih =>
    simp only [List.orderedInsert]
    by_cases h : dealGE a b
    · rw [if_pos h]
      simp [List.filter_cons, haf]
    · rw [if_neg h]
      simp [List.filter_cons, ih]

theorem filter_sortDealsDesc (deals : List Deal) (k : ℤ) :
    (sortDealsDesc deals).filter (fun d => d.discount_percent == k) =
      deals.filter (fun d => d.discount_percent == k) := by
  induction deals with
  | nil => rfl
  | cons a t ih =>
    simp only [sortDealsDesc, List.insertionSort] at ih ⊢
    by_cases ha : a.discount_percent = k
    · rw [filter_orderedInsert_eq a k ha, ih]
      have hat : (a.discount_percent == k) = true := beq_iff_eq.mpr ha
      simp [List.filter_cons, hat]
    · rw [filter_orderedInsert_ne a k ha, ih]
      have haf : (a.discount_percent == k) = false := by simp [ha]
      simp [List.filter_cons, haf]

end DealsBot

/-! Claim theorems.  Each claim of the specification gets exactly one
theorem below, with a witness (for theorems with hypotheses) or a
counterexample (for corrected claims). -/

open DealsBot

/-- C3: `min_request_interval` is monotonically non-decreasing: for every
state, clock and callable behaviour, a `_throttled_request` call changes it
from `T` to exactly `T + 5 * (number of backoff sleeps)` — never a decrease
or reset — so every `+5.0` escalation is retained, including across a
subsequent call. -/
theorem c3_min_interval_monotone {α : Type} (st : ThrottleState) (c c' : Clock)
    (func func' : ℕ → ℚ × Except String α) :
    (throttledRequest st c func).finalState.min_request_interval =
        st.min_request_interval +
          5 * ((throttledRequest st c func).backoffSleeps.length : ℚ) ∧
    st.min_request_interval ≤ (throttledRequest st c func).finalState.min_request_interval ∧
    st.min_request_interval ≤
      (throttledRequest (throttledRequest st c func).finalState c' func').finalState.min_request_interval := by
  refine ⟨throttled_interval_eq st c func, throttled_interval_ge st c func, ?_⟩
  exact le_trans (throttled_interval_ge st c func)
    (throttled_interval_ge (throttledRequest st c func).finalState c' func')

/-- C2: pacing.  If the elapsed time since `last_request_time` read at entry
is below `min_request_interval = T`, the call sleeps exactly the difference;
assuming time only moves forward (nonnegative drifts), the first dispatch
happens no earlier than `last_request_time + T`; `last_request_time` is
recorded at the moment of dispatch (the call's duration elapses afterwards,
so completion time is dispatch time plus duration); and a second
`_throttled_request` call on the resulting state dispatches at least `T`
seconds after the recorded dispatch time of the first. -/
theorem c2_throttle_spacing {α : Type} (st : ThrottleState) (c : Clock)
    (func func' : ℕ → ℚ × Except String α)
    (hd : ∀ d ∈ c.drifts, 0 ≤ d) :
    (c.now + c.drifts.headD 0 - st.last_request_time < st.min_request_interval →
        (throttledRequest st c func).paceSleep =
          some (st.min_request_interval - (c.now + c.drifts.headD 0 - st.last_request_time))) ∧
    st.last_request_time + st.min_request_interval ≤
        (throttledRequest st c func).dispatchTimes.headD 0 ∧
    (throttledRequest st c func).finalState.last_request_time =
        (throttledRequest st c func).dispatchTimes.getLastD st.last_request_time ∧
    (∀ (dur : ℚ) (v : α), func 0 = (dur, Except.ok v) →
        (throttledRequest st c func).finalClock.now =
          (throttledRequest st c func).dispatchTimes.headD 0 + dur) ∧
    (throttledRequest st c func).finalState.last_request_time + st.min_request_interval ≤
      (throttledRequest (throttledRequest st c func).finalState
          (throttledRequest st c func).finalClock func').dispatchTimes.headD 0 := by
  refine ⟨?_, throttled_dispatch_ge st c func hd, ?_, ?_, ?_⟩
  · intro h
    simp only [throttledRequest, Clock.read]
    rw [if_pos h]
  · rfl
  · intro dur v hf
    simp only [throttledRequest]
    by_cases h : c.read.1 - st.last_request_time < st.min_request_interval
    · simp only [if_pos h]
      rw [retryLoop_success func st.max_retries st.max_retries st.min_request_interval _ 0 0 dur v hf]
      simp
    · simp only [if_neg h]
      rw [retryLoop_success func st.max_retries st.max_retries st.min_request_interval _ 0 0 dur v hf]
      simp
  · have hd2 : ∀ d ∈ (throttledRequest st c func).finalClock.drifts, 0 ≤ d :=
      fun d hm => hd d (throttled_drifts_mem st c func d hm)
    have h2 := throttled_dispatch_ge (throttledRequest st c func).finalState
      (throttledRequest st c func).finalClock func' hd2
    have h3 := throttled_interval_ge st c func
    linarith

/-- C2 witness: a throttler with `last_request_time = 0`,
`min_request_interval = 10`, a clock at time `3` with no drift, and a
callable that succeeds after `1` second: the drift hypothesis holds and the
first dispatch is at least `0 + 10`. -/
theorem c2_throttle_spacing_witness :
    (∀ d ∈ (Clock.mk 3 []).drifts, 0 ≤ d) ∧
    (0 : ℚ) + 10 ≤
      (throttledRequest ⟨0, 10, 3⟩ ⟨3, []⟩
        (fun _ => ((1 : ℚ), Except.ok ()))).dispatchTimes.headD 0 :=
  ⟨by simp,
   (c2_throttle_spacing ⟨0, 10, 3⟩ ⟨3, []⟩ (fun _ => ((1 : ℚ), Except.ok ()))
      (fun _ => ((1 : ℚ), Except.ok ())) (by simp)).2.1⟩

/-- C1: with `max_retries = 3` and a callable failing with a
rate-limit-signature error on all four dispatch attempts, the backoff sleeps
are exactly `[60, 120, 240]`, `min_request_interval` grows by exactly `15`
(three `+5` escalations) and persists in the final state, the fourth
attempt's failure is the propagated result, and exactly four dispatches
occur. -/
theorem c1_rate_limit_escalation {α : Type} (st : ThrottleState) (c : Clock)
    (dur : ℕ → ℚ) (e : ℕ → String)
    (hmax : st.max_retries = 3)
    (hrl : ∀ n, isRateLimitSignature (e n) = true) :
    (throttledRequest st c (fun n => (dur n, (Except.error (e n) : Except String α)))).backoffSleeps =
        [60, 120, 240] ∧
    (throttledRequest st c (fun n => (dur n, (Except.error (e n) : Except String α)))).finalState.min_request_interval =
        st.min_request_interval + 15 ∧
    (throttledRequest st c (fun n => (dur n, (Except.error (e n) : Except String α)))).result =
        Except.error (e 3) ∧
    (throttledRequest st c (fun n => (dur n, (Except.error (e n) : Except String α)))).dispatchTimes.length = 4 := by
  obtain ⟨lrt, mri, mr⟩ := st
  simp only at hmax
  subst hmax
  refine ⟨?_, ?_, ?_, ?_⟩ <;>
    (norm_num [throttledRequest, retryLoop, hrl, Clock.read, Clock.sleep]; try ring)

/-- C1 witness: a concrete run — state `⟨0, 10, 3⟩`, clock at `0`, every
attempt failing instantly with `"TooManyRequests"` — satisfies the
rate-limit-signature hypothesis and produces backoff sleeps `[60, 120, 240]`. -/
theorem c1_rate_limit_escalation_witness :
    isRateLimitSignature "TooManyRequests" = true ∧
    (throttledRequest ⟨0, 10, 3⟩ ⟨0, []⟩
        (fun _ => ((0 : ℚ), (Except.error "TooManyRequests" : Except String Unit)))).backoffSleeps =
      [60, 120, 240] :=
  ⟨by decide,
   (@c1_rate_limit_escalation Unit ⟨0, 10, 3⟩ ⟨0, []⟩ (fun _ => 0)
      (fun _ => "TooManyRequests") rfl
      (fun _ => (by decide : isRateLimitSignature "TooManyRequests" = true))).1⟩

/-- C4 counterexample: the claim says `calculate_discount` never returns a
negative value for any pair of inputs, but with `current = 20`,
`original = 10` (both positive, price above the reference) the code computes
`int((10 - 20) / 10 * 100) = -100`, a negative result. -/
theorem c4_discount_negative_counterexample :
    calculate_discount 20 10 = -100 ∧ calculate_discount 20 10 < 0 := by
  have h : calculate_discount 20 10 = -100 := by
    norm_num [calculate_discount, pyInt, ceil_neg_hundred]
  exact ⟨h, by rw [h]; norm_num⟩

/-- C4 (amended): `calculate_discount` is total (never raises), returns `0`
whenever `original ≤ 0` or `current ≤ 0`, and is non-negative whenever
`current ≤ original`; only when `current > original > 0` can the result be
negative. -/
theorem c4_discount_guard_and_nonneg (c o : ℚ) :
    (o ≤ 0 ∨ c ≤ 0 → calculate_discount c o = 0) ∧
    (c ≤ o → 0 ≤ calculate_discount c o) := by
  constructor
  · intro h
    simp [calculate_discount, h]
  · exact fun h => calculate_discount_nonneg_of_le h

/-- C4 witness: the amended theorem evaluated at concrete inputs. -/
theorem c4_discount_guard_and_nonneg_witness :
    calculate_discount 2 0 = 0 ∧ 0 ≤ calculate_discount 8 10 := by
  refine ⟨(c4_discount_guard_and_nonneg 2 0).1 (Or.inl le_rfl), ?_⟩
  exact (c4_discount_guard_and_nonneg 8 10).2 (by norm_num)

/-- C5: for `original > current > 0`, `calculate_discount` returns the exact
integer floor of `(original - current) / original * 100` under exact decimal
arithmetic (modelled by `ℚ`); in particular `calculate_discount 8 10 = 20`. -/
theorem c5_discount_exact_floor :
    (∀ c o : ℚ, 0 < c → c < o →
      calculate_discount c o = ⌊(o - c) / o * 100⌋) ∧
    calculate_discount 8 10 = 20 := by
  constructor
  · intro c o hc hco
    have ho : 0 < o := lt_trans hc hco
    have hguard : ¬ (o ≤ 0 ∨ c ≤ 0) := by push_neg; exact ⟨ho, hc⟩
    have hq : 0 ≤ (o - c) / o * 100 := by
      have h1 : 0 ≤ o - c := sub_nonneg.mpr (le_of_lt hco)
      have h2 : 0 ≤ (o - c) / o := div_nonneg h1 (le_of_lt ho)
      nlinarith
    simp [calculate_discount, hguard, pyInt_of_nonneg hq]
  · norm_num [calculate_discount, pyInt]

/-- C5 witness: the universal part evaluated at `current = 8`,
`original = 10`. -/
theorem c5_discount_exact_floor_witness :
    calculate_discount 8 10 = ⌊((10 : ℚ) - 8) / 10 * 100⌋ :=
  c5_discount_exact_floor.1 8 10 (by norm_num) (by norm_num)

/-- C6: an item whose first listing carries a current price amount but no
savings-basis amount (missing at either level) is dropped by both extraction
loops; and conversely, every deal either loop constructs comes from an item
whose first listing has a numeric savings-basis amount, which becomes the
deal's `original_price`. -/
theorem c6_extractor_requires_saving_basis :
    (∀ (md : ℤ) (tag : String) (it : Item) (listing : Listing) (rest : List Listing),
        it.offers_listings = some (listing :: rest) →
        (∃ pf a, listing.price = some pf ∧ pf.amount = some a) →
        (listing.saving_basis = none ∨
          ∃ sb, listing.saving_basis = some sb ∧ sb.amount = none) →
        extractItem md tag it = none ∧ extractItemFetcher tag it = none) ∧
    (∀ (md : ℤ) (tag : String) (it : Item) (d : Deal),
        extractItem md tag it = some d →
        ∃ (listing : Listing) (rest : List Listing) (sb : PriceField) (q : ℚ),
          it.offers_listings = some (listing :: rest) ∧
          listing.saving_basis = some sb ∧
          sb.amount = some (PyNum.num q) ∧
          d.original_price = q) := by
  constructor
  · intro md tag it listing rest hol hp hsb
    obtain ⟨pf, a, hpf, ha⟩ := hp
    rcases hsb with hnone | ⟨sb, hsb2, hamt⟩
    · cases a <;>
        simp [extractItem, extractItemE, extractItemFetcher, extractItemFetcherE,
          hol, hpf, ha, hnone, convertAmount]
    · cases a <;>
        simp [extractItem, extractItemE, extractItemFetcher, extractItemFetcherE,
          hol, hpf, ha, hsb2, hamt, convertAmount]
  · intro md tag it d h
    unfold extractItem extractItemE at h
    cases hol : it.offers_listings with
    | none => rw [hol] at h; simp at h
    | some ls =>
      simp only [hol] at h
      cases ls with
      | nil => simp at h
      | cons listing rest =>
        cases hpr : listing.price with
        | none => simp only [hpr] at h; simp at h
        | some pf =>
          simp only [hpr] at h
          cases hpa : pf.amount with
          | none => simp only [hpa] at h; simp at h
          | some a =>
            simp only [hpa] at h
            cases a with
            | bad => simp [convertAmount] at h
            | num qc =>
              simp only [convertAmount] at h
              cases hsb : listing.saving_basis with
              | none => simp only [hsb] at h; simp at h
              | some sb =>
                simp only [hsb] at h
                cases hsa : sb.amount with
                | none => simp only [hsa] at h; simp at h
                | some b =>
                  simp only [hsa] at h
                  cases b with
                  | bad => simp [convertAmount] at h
                  | num qo =>
                    simp only [convertAmount] at h
                    by_cases hd : md ≤ calculate_discount qc qo
                    · rw [if_pos hd] at h
                      simp only [Except.ok.injEq, Option.some.injEq] at h
                      refine ⟨listing, rest, sb, qo, rfl, hsb, hsa, ?_⟩
                      rw [← h]
                    · rw [if_neg hd] at h
                      simp at h

/-- C6 witness: a concrete item with a current price amount of `5` and a
missing `saving_basis` attribute is dropped by both loops. -/
theorem c6_extractor_requires_saving_basis_witness :
    extractItem 20 "t"
        ⟨some [⟨some ⟨some (PyNum.num 5)⟩, none⟩], none, none, none⟩ = none ∧
    extractItemFetcher "t"
        ⟨some [⟨some ⟨some (PyNum.num 5)⟩, none⟩], none, none, none⟩ = none :=
  c6_extractor_requires_saving_basis.1 20 "t"
    ⟨some [⟨some ⟨some (PyNum.num 5)⟩, none⟩], none, none, none⟩
    ⟨some ⟨some (PyNum.num 5)⟩, none⟩ [] rfl
    ⟨⟨some (PyNum.num 5)⟩, PyNum.num 5, rfl, rfl⟩ (Or.inl rfl)

/-- C7: per-item extraction never aborts the batch: the item loop is a total
function on the item list, each item contributes exactly its own extraction
result, and an item whose extraction raises (reaches the per-item `except`
handler as `Except.error`) is simply dropped while every other item of the
same response is still processed — in both extraction loops. -/
theorem c7_malformed_item_isolated :
    (∀ (md : ℤ) (tag : String) (l₁ l₂ : List Item) (item : Item),
        processItems md tag (l₁ ++ item :: l₂) =
          processItems md tag l₁ ++ (extractItem md tag item).toList ++
            processItems md tag l₂) ∧
    (∀ (md : ℤ) (tag : String) (l₁ l₂ : List Item) (item : Item),
        extractItemE md tag item = Except.error () →
        processItems md tag (l₁ ++ item :: l₂) =
          processItems md tag l₁ ++ processItems md tag l₂) ∧
    (∀ (tag : String) (l₁ l₂ : List Item) (item : Item),
        extractItemFetcherE tag item = Except.error () →
        processItemsFetcher tag (l₁ ++ item :: l₂) =
          processItemsFetcher tag l₁ ++ processItemsFetcher tag l₂) := by
  refine ⟨?_, ?_, ?_⟩
  · intro md tag l₁ l₂ item
    rw [processItems_append, processItems_cons, List.append_assoc]
  · intro md tag l₁ l₂ item h
    have hnone : extractItem md tag item = none := by
      unfold extractItem
      rw [h]
    rw [processItems_append, processItems_cons, hnone]
    simp
  · intro tag l₁ l₂ item h
    have hnone : extractItemFetcher tag item = none := by
      unfold extractItemFetcher
      rw [h]
    rw [processItemsFetcher_append]
    simp only [processItemsFetcher, hnone]

/-- C7 witness: an item whose price amount raises on conversion makes the
extraction error (so it is dropped), and processing a batch around it
equals processing the rest of the batch. -/
theorem c7_malformed_item_isolated_witness :
    extractItemE 20 "t"
        ⟨some [⟨some ⟨some PyNum.bad⟩, some ⟨some (PyNum.num 10)⟩⟩], none, none, none⟩ =
      Except.error () ∧
    processItems 20 "t"
        [⟨none, none, none, none⟩,
         ⟨some [⟨some ⟨some PyNum.bad⟩, some ⟨some (PyNum.num 10)⟩⟩], none, none, none⟩] =
      processItems 20 "t" [⟨none, none, none, none⟩] ++ processItems 20 "t" [] :=
  ⟨rfl,
   c7_malformed_item_isolated.2.1 20 "t" [⟨none, none, none, none⟩] []
     ⟨some [⟨some ⟨some PyNum.bad⟩, some ⟨some (PyNum.num 10)⟩⟩], none, none, none⟩ rfl⟩

/-- C8: ranking and selection — the result of sort-then-truncate is sorted
descending by `discount_percent`, the sort is a permutation of the input,
truncation keeps the first `n` entries, equal-discount deals keep their
discovery order (the filter at any fixed discount is unchanged by the sort),
and the concrete example: discounts `[10, 30, 30, 5]` in discovery order,
top 3, yield the first 30, the second 30, then 10. -/
theorem c8_ranking_sorted_stable_topN :
    (∀ (deals : List Deal) (n : ℕ),
        List.Sorted dealGE (selectTopDeals deals n) ∧
        (sortDealsDesc deals).Perm deals ∧
        selectTopDeals deals n = (sortDealsDesc deals).take n ∧
        (∀ k : ℤ,
          (sortDealsDesc deals).filter (fun d => d.discount_percent == k) =
            deals.filter (fun d => d.discount_percent == k))) ∧
    selectTopDeals [mkDeal "A" 10, mkDeal "B" 30, mkDeal "C" 30, mkDeal "D" 5] 3 =
      [mkDeal "B" 30, mkDeal "C" 30, mkDeal "A" 10] := by
  constructor
  · intro deals n
    refine ⟨?_, List.perm_insertionSort dealGE deals, rfl,
      fun k => filter_sortDealsDesc deals k⟩
    exact List.Pairwise.sublist (List.take_sublist n _)
      (List.sorted_insertionSort dealGE deals)
  · decide

/-- C9: a keyword whose search raises is skipped by the sweep: the
accumulated deal collection equals the concatenation of what the earlier
and later keywords contribute, so in particular every deal found under a
later keyword is still in the result. -/
theorem c9_sweep_isolates_keyword_failure
    (search : String → Except String (Option (List Item)))
    (md : ℤ) (tag : String) (ks₁ ks₂ : List String) (kb : String) (e : String)
    (h : search kb = Except.error e) :
    sweepDeals search md tag (ks₁ ++ kb :: ks₂) =
        sweepDeals search md tag ks₁ ++ sweepDeals search md tag ks₂ ∧
    ∀ d ∈ sweepDeals search md tag ks₂,
      d ∈ sweepDeals search md tag (ks₁ ++ kb :: ks₂) := by
  have heq : sweepDeals search md tag (ks₁ ++ kb :: ks₂) =
      sweepDeals search md tag ks₁ ++ sweepDeals search md tag ks₂ := by
    rw [sweepDeals_append]
    simp [sweepDeals, h]
  refine ⟨heq, fun d hd => ?_⟩
  rw [heq]
  exact List.mem_append_right _ hd

/-- C9 witness: a search collaborator that raises on the keyword `"bad"` and
returns an item elsewhere: sweeping `["a", "bad", "c"]` equals sweeping
`["a"]` and `["c"]` and concatenating. -/
theorem c9_sweep_isolates_keyword_failure_witness :
    sweepDeals
        (fun k => if k = "bad" then Except.error "boom"
          else Except.ok (some [⟨none, none, none, none⟩]))
        20 "t" (["a"] ++ "bad" :: ["c"]) =
      sweepDeals
        (fun k => if k = "bad" then Except.error "boom"
          else Except.ok (some [⟨none, none, none, none⟩]))
        20 "t" ["a"] ++
      sweepDeals
        (fun k => if k = "bad" then Except.error "boom"
          else Except.ok (some [⟨none, none, none, none⟩]))
        20 "t" ["c"] :=
  (c9_sweep_isolates_keyword_failure
    (fun k => if k = "bad" then Except.error "boom"
      else Except.ok (some [⟨none, none, none, none⟩]))
    20 "t" ["a"] ["c"] "bad" "boom" (by simp)).1

/-- C10 (implicit): `find_deals_by_keyword` propagates no exception of the
search collaborator — whenever the throttled search call ends in any error
(including the rate-limit error surfaced after retry exhaustion), it returns
the empty list, which is the same observable a successful search with no
items produces, so the caller cannot distinguish the two. -/
theorem c10_find_deals_swallows_search_errors
    (st : ThrottleState) (c : Clock)
    (searchCall : ℕ → ℚ × Except String (Option (List Item)))
    (md : ℤ) (tag : String) (e : String)
    (h : (throttledRequest st c searchCall).result = Except.error e) :
    (findDealsByKeyword st c searchCall md tag).1 = [] ∧
    ∀ (st' : ThrottleState) (c' : Clock) (dur : ℚ),
      (findDealsByKeyword st' c'
          (fun _ => (dur, Except.ok (none : Option (List Item)))) md tag).1 = [] := by
  constructor
  · simp only [findDealsByKeyword, h]
  · intro st' c' dur
    simp only [findDealsByKeyword,
      throttled_result_success st' c'
        (fun _ => (dur, Except.ok (none : Option (List Item)))) dur none rfl]

/-- C10 witness: with a search call that fails at once with a
non-rate-limit error `"boom"`, the throttled request surfaces that error and
`find_deals_by_keyword` returns `[]`. -/
theorem c10_find_deals_swallows_search_errors_witness :
    (throttledRequest ⟨0, 10, 3⟩ ⟨0, []⟩
        (fun _ => ((0 : ℚ),
          (Except.error "boom" : Except String (Option (List Item)))))).result =
      Except.error "boom" ∧
    (findDealsByKeyword ⟨0, 10, 3⟩ ⟨0, []⟩
        (fun _ => ((0 : ℚ),
          (Except.error "boom" : Except String (Option (List Item))))) 20 "t").1 = [] := by
  have hb : isRateLimitSignature "boom" = false := by decide
  have h : (throttledRequest ⟨0, 10, 3⟩ ⟨0, []⟩
      (fun _ => ((0 : ℚ),
        (Except.error "boom" : Except String (Option (List Item)))))).result =
      Except.error "boom" := by
    simp [throttledRequest, retryLoop, hb]
  exact ⟨h,
    (c10_find_deals_swallows_search_errors ⟨0, 10, 3⟩ ⟨0, []⟩
      (fun _ => ((0 : ℚ),
        (Except.error "boom" : Except String (Option (List Item))))) 20 "t" "boom" h).1⟩
